import Mathlib

/-!
Verification of the South African (JSE) market layer of the ai-hedge-fund
repository: the market configuration (`sa_market_config.py`), the data
adapter (`sa_data_adapter.py`) and the three analyst agents
(`sa_market_analyst.py`).

Modelling conventions:
* Python numbers (ints and floats used for money, confidences, limits) are
  modelled as rationals `ℚ`; float literals such as `0.05` become `5 / 100`.
* Python dicts appearing as data (caches, the sector map, indicator maps,
  result maps) are modelled as insertion-ordered association lists with the
  Python `dict.get` / `dict.__setitem__` semantics (`dictGet` / `dictSet`).
* Side effects are made explicit: HTTP traffic is an oracle argument of the
  functions that perform requests, and each function returns the list of
  requests it issued together with the cache state after the call.
* The LLM boundary is an oracle mapping a ticker to either a parsed
  analysis or a failure (covering both a raised exception from the model
  call and a JSON-parse failure of its reply).
-/

namespace SAHedge

/-- Python dict lookup `d.get(key)`: first binding of the key, if any. -/
def dictGet {β : Type} : List (String × β) → String → Option β
  | [], _ => none
  | (k, v) :: rest, key => if k = key then some v else dictGet rest key

/-- Python dict assignment `d[key] = v`: replace the binding in place if the
key is present (keeping insertion order), otherwise append it. -/
def dictSet {β : Type} : List (String × β) → String → β → List (String × β)
  | [], key, v => [(key, v)]
  | (k, w) :: rest, key, v =>
    if k = key then (k, v) :: rest else (k, w) :: dictSet rest key v

/-- SAMarketConfig.TOP_STOCKS from `sa_market_config.py`. -/
def TOP_STOCKS : List String :=
  ["NPN", "BHP", "AGL", "MTN", "VOD", "SBK", "FSR", "NED", "ABG", "SOL",
   "IMP", "ANG", "AMS", "SHP", "WHL", "TBS", "BID", "TFG", "MRP", "CLS"]

/-- SAMarketConfig.SECTORS from `sa_market_config.py`. -/
def SECTORS : List String :=
  ["Financial Services", "Mining & Resources", "Industrial", "Consumer Goods",
   "Technology", "Healthcare", "Real Estate", "Telecommunications", "Energy",
   "Transportation"]

/-- SAMarketConfig.MAX_POSITION_SIZE (Python float 0.05). -/
def MAX_POSITION_SIZE : ℚ := 5 / 100

/-- SAMarketConfig.MAX_SECTOR_EXPOSURE (Python float 0.30). -/
def MAX_SECTOR_EXPOSURE : ℚ := 30 / 100

/-- is_jse_ticker from `sa_market_config.py`:
`len(ticker) >= 3 and len(ticker) <= 4 and ticker.isalpha() and
ticker in sa_config.TOP_STOCKS`.  All tickers involved are ASCII, where
Python `str.isalpha` agrees with `Char.isAlpha` on every character. -/
def is_jse_ticker (ticker : String) : Bool :=
  decide (3 ≤ ticker.length) && decide (ticker.length ≤ 4)
    && ticker.toList.all Char.isAlpha && decide (ticker ∈ TOP_STOCKS)

/-- SADataAdapter.validate_sa_ticker from `sa_data_adapter.py`:
`is_jse_ticker(ticker) and ticker in self.config.TOP_STOCKS`. -/
def validate_sa_ticker (ticker : String) : Bool :=
  is_jse_ticker ticker && decide (ticker ∈ TOP_STOCKS)

/-- The literal `sector_mapping` dict inside
SADataAdapter.get_sa_sector_exposure (`sa_data_adapter.py`). -/
def sector_mapping : List (String × String) :=
  [("SBK", "Financial Services"), ("FSR", "Financial Services"),
   ("NED", "Financial Services"), ("ABG", "Financial Services"),
   ("BHP", "Mining & Resources"), ("AGL", "Mining & Resources"),
   ("SOL", "Mining & Resources"), ("IMP", "Mining & Resources"),
   ("ANG", "Mining & Resources"), ("AMS", "Mining & Resources"),
   ("SHP", "Consumer Goods"), ("WHL", "Consumer Goods"),
   ("TBS", "Consumer Goods"), ("BID", "Consumer Goods"),
   ("TFG", "Consumer Goods"), ("MRP", "Consumer Goods"),
   ("CLS", "Consumer Goods"),
   ("MTN", "Telecommunications"), ("VOD", "Telecommunications"),
   ("NPN", "Technology")]

/-- SADataAdapter.get_sa_sector_exposure: `sector_mapping.get(ticker)`. -/
def get_sa_sector_exposure (ticker : String) : Option String :=
  dictGet sector_mapping ticker

/-- Round a rational to the nearest integer, ties to even: the rounding used
by Python's fixed-point string formatting, applied to the exact value. -/
def roundHalfEven (q : ℚ) : ℤ :=
  if q - ⌊q⌋ < 1 / 2 then ⌊q⌋
  else if 1 / 2 < q - ⌊q⌋ then ⌊q⌋ + 1
  else if ⌊q⌋ % 2 = 0 then ⌊q⌋ else ⌊q⌋ + 1

/-- Python `f"{q:.2%}"` modelled on the exact rational value: the value times
100, rendered with two decimal places and a percent sign. -/
def formatPct (q : ℚ) : String :=
  let n := roundHalfEven (q * 10000)
  let sign := if n < 0 then "-" else ""
  let m := n.natAbs
  sign ++ toString (m / 100) ++ "." ++
    (if m % 100 < 10 then "0" else "") ++ toString (m % 100) ++ "%"

/-- AnalystSignal from `src/data/models.py` as used by the SA agents: a
categorical signal, a confidence, a free-form reasoning payload (whose shape
differs per agent, hence the type parameter) and a position-size cap. -/
structure AnalystSignal (ρ : Type) where
  signal : String
  confidence : ℚ
  reasoning : ρ
  max_position_size : ℚ
deriving DecidableEq

/-- A portfolio position (`position.shares`). -/
structure Position where
  shares : ℚ
deriving DecidableEq

/-- The portfolio record used by sa_regulatory_compliance_agent:
`portfolio.total_cash` and the `portfolio.positions` dict. -/
structure Portfolio where
  total_cash : ℚ
  positions : List (String × Position)
deriving DecidableEq

/-- The two shapes of dict appended to `compliance_issues` in
sa_regulatory_compliance_agent (`sa_market_analyst.py`). -/
inductive ComplianceIssue where
  | position (ticker issue current_size max_allowed : String)
  | sector (sector issue current_exposure max_allowed : String)
deriving DecidableEq

/-- The position-size loop of sa_regulatory_compliance_agent: for every
position with positive shares, `position_value = shares * 100`,
`position_size = position_value / total_cash if total_cash > 0 else 0`, and
an issue is appended when the size exceeds MAX_POSITION_SIZE. -/
def position_issues (portfolio : Portfolio) : List ComplianceIssue :=
  portfolio.positions.filterMap fun tp =>
    if 0 < tp.2.shares then
      let position_value := tp.2.shares * 100
      let position_size :=
        if 0 < portfolio.total_cash then position_value / portfolio.total_cash
        else 0
      if MAX_POSITION_SIZE < position_size then
        some (.position tp.1 "Position size exceeds 5% limit"
          (formatPct position_size) (formatPct MAX_POSITION_SIZE))
      else none
    else none

/-- The `sector_exposures` accumulation loop of
sa_regulatory_compliance_agent, with the accumulator dict explicit:
`sector_exposures[sector] = sector_exposures.get(sector, 0) +
position.shares` for every position with positive shares and a mapped
sector. -/
def sectorExposuresFrom (m : List (String × ℚ)) :
    List (String × Position) → List (String × ℚ)
  | [] => m
  | (ticker, position) :: rest =>
    if 0 < position.shares then
      match get_sa_sector_exposure ticker with
      | some sector =>
        sectorExposuresFrom
          (dictSet m sector ((dictGet m sector).getD 0 + position.shares)) rest
      | none => sectorExposuresFrom m rest
    else sectorExposuresFrom m rest

/-- The `sector_exposures` dict computed by sa_regulatory_compliance_agent,
starting from the empty dict. -/
def sector_exposures (positions : List (String × Position)) :
    List (String × ℚ) :=
  sectorExposuresFrom [] positions

/-- The sector-exposure loop of sa_regulatory_compliance_agent: each
sector's exposure divided by the sum of all exposures (0 when the sum is not
positive), flagged when it exceeds MAX_SECTOR_EXPOSURE. -/
def sector_issues (positions : List (String × Position)) :
    List ComplianceIssue :=
  let exps := sector_exposures positions
  let total := (exps.map Prod.snd).sum
  exps.filterMap fun se =>
    let share := if 0 < total then se.2 / total else 0
    if MAX_SECTOR_EXPOSURE < share then
      some (.sector se.1 "Sector exposure exceeds 30% limit"
        (formatPct share) (formatPct MAX_SECTOR_EXPOSURE))
    else none

/-- sa_regulatory_compliance_agent from `sa_market_analyst.py`: deterministic
arithmetic producing a COMPLIANT / NON_COMPLIANT signal; the reasoning
payload is modelled by its `compliance_issues` entry. -/
def sa_regulatory_compliance_agent (portfolio : Portfolio) :
    AnalystSignal (List ComplianceIssue) :=
  let compliance_issues :=
    position_issues portfolio ++ sector_issues portfolio.positions
  { signal := if compliance_issues.isEmpty then "COMPLIANT" else "NON_COMPLIANT"
    confidence := if compliance_issues.isEmpty then 1 else 8 / 10
    reasoning := compliance_issues
    max_position_size := MAX_POSITION_SIZE }

/-- The literal `currency_sensitive_stocks` dict inside
sa_currency_risk_agent (`sa_market_analyst.py`). -/
def currency_sensitive_stocks : List (String × String) :=
  [("BHP", "high"), ("AGL", "high"), ("SOL", "high"),
   ("MTN", "medium"), ("VOD", "medium"), ("NPN", "high"),
   ("SHP", "low"), ("WHL", "low"), ("TBS", "low"), ("BID", "low"),
   ("TFG", "low"), ("MRP", "low"), ("CLS", "low"),
   ("SBK", "medium"), ("FSR", "medium"), ("NED", "medium"), ("ABG", "medium")]

/-- The reasoning payload of a currency-risk signal, modelled by its scalar
fields: the sensitivity string, the inflation and repo-rate indicator values
and the fx-rate context embedded in `zar_analysis`. -/
structure CurrencyReasoning where
  currency_sensitivity : String
  inflation_impact : ℚ
  interest_rate_impact : ℚ
  fx_context : List (String × ℚ)
deriving DecidableEq

/-- The per-ticker body of the sa_currency_risk_agent loop:
`sensitivity = currency_sensitive_stocks.get(ticker, "low")`, then the
if/elif/else ladder choosing signal and confidence, and
`max_position_size = 0.03 if sensitivity == "high" else 0.05`. -/
def currencyTickerSignal (inflation repo : ℚ) (fx : List (String × ℚ))
    (ticker : String) : AnalystSignal CurrencyReasoning :=
  let sensitivity := (dictGet currency_sensitive_stocks ticker).getD "low"
  let signal :=
    if sensitivity = "high" then (if 6 < inflation then "REDUCE" else "HOLD")
    else if sensitivity = "medium" then "HOLD"
    else "BUY"
  let confidence : ℚ :=
    if sensitivity = "high" then 8 / 10
    else if sensitivity = "medium" then 6 / 10
    else 7 / 10
  { signal := signal
    confidence := confidence
    reasoning := ⟨sensitivity, inflation, repo, fx⟩
    max_position_size := if sensitivity = "high" then 3 / 100 else 5 / 100 }

/-- The ticker loop of sa_currency_risk_agent: tickers failing
validate_sa_ticker are skipped (`continue`); the others get the signal of
`currencyTickerSignal`, with `inflation = economic_indicators.get("SA_CPI", 0)`
and `repo_rate = economic_indicators.get("SA_REPO_RATE", 0)`. -/
def sa_currency_risk_agent (economic_indicators fx_rates : List (String × ℚ)) :
    List String → List (String × AnalystSignal CurrencyReasoning)
  | [] => []
  | ticker :: rest =>
    let r := sa_currency_risk_agent economic_indicators fx_rates rest
    if validate_sa_ticker ticker then
      (ticker,
        currencyTickerSignal ((dictGet economic_indicators "SA_CPI").getD 0)
          ((dictGet economic_indicators "SA_REPO_RATE").getD 0) fx_rates ticker)
        :: r
    else r

/-- Outcome of the LLM boundary for one ticker of sa_market_analyst_agent:
either the reply parsed as JSON (its signal, confidence, reasoning dict and
max position size fields), or a failure covering both a raised model call
and a json.loads error. -/
inductive LLMOutcome where
  | parsed (signal : String) (confidence : ℚ)
      (reasoning : List (String × String)) (max_position_size : ℚ)
  | failed (err : String)

/-- Reasoning payload of a market-analyst signal: the parsed reasoning dict,
or the `error` dict built in the except branch. -/
inductive MAReasoning where
  | parsed (fields : List (String × String))
  | analysisFailed (msg : String)
deriving DecidableEq

/-- The try/except body of the sa_market_analyst_agent ticker loop: a parsed
reply becomes an AnalystSignal of its fields; any failure is caught and
degraded to the default `AnalystSignal(signal="HOLD", confidence=0.5, ...,
max_position_size=0.02)`. -/
def analyzeTicker (llm : String → LLMOutcome) (ticker : String) :
    AnalystSignal MAReasoning :=
  match llm ticker with
  | .parsed s c r m => ⟨s, c, .parsed r, m⟩
  | .failed e => ⟨"HOLD", 1 / 2, .analysisFailed ("Analysis failed: " ++ e), 2 / 100⟩

/-- The ticker loop of sa_market_analyst_agent: tickers failing
validate_sa_ticker are skipped before any adapter call (`continue`); for the
others the adapter fetches run and the try/except body stores a signal.  The
first component is the `ticker_analyses` dict, the second the list of
tickers for which the adapter fetch functions were invoked. -/
def sa_market_analyst_agent (llm : String → LLMOutcome) :
    List String → List (String × AnalystSignal MAReasoning) × List String
  | [] => ([], [])
  | ticker :: rest =>
    let r := sa_market_analyst_agent llm rest
    if validate_sa_ticker ticker then
      ((ticker, analyzeTicker llm ticker) :: r.1, ticker :: r.2)
    else r

/-- A raw price dict inside the JSON body of the prices endpoint. -/
structure PriceDict where
  fields : List (String × String)
deriving DecidableEq

/-- The JSON body returned by the prices endpoint: a wrapped array under the
key `prices` (what `response.json()` yields there). -/
structure PricesBody where
  prices : List PriceDict
deriving DecidableEq

/-- The typed Price record of `src/data/models.py`, built by `Price(**d)`
from a raw dict. -/
structure Price where
  data : List (String × String)
deriving DecidableEq

/-- Python `Price(**price_data)`. -/
def Price.ofDict (d : PriceDict) : Price := ⟨d.fields⟩

/-- The HTTP oracle for the prices endpoint, keyed by the ticker-format
string interpolated into the request URL (all other URL components are fixed
by the arguments): `none` models `requests.get` raising, `some (st, body)` a
response with status `st` and JSON body `body`. -/
def HttpWorld : Type := String → Option (Nat × PricesBody)

/-- The `ticker_formats` list of SADataAdapter.get_jse_prices: original,
`JSE:` prefixed, `.JSE` suffixed, `.JO` suffixed, in that order. -/
def ticker_formats (ticker : String) : List String :=
  [ticker, "JSE:" ++ ticker, ticker ++ ".JSE", ticker ++ ".JO"]

/-- The body of the successful (HTTP 200) response for a format, if any:
the condition under which the loop in get_jse_prices returns. -/
def succBody (world : HttpWorld) (f : String) : Option PricesBody :=
  match world f with
  | some (st, body) => if st = 200 then some body else none
  | none => none

/-- The `for ticker_format in ticker_formats` loop of get_jse_prices: each
format is requested in order; a raised request or a non-200 status falls
through to the next format; the first 200 response is returned at once.
Returns the ordered list of formats actually requested and the body of the
first success, if any. -/
def tryFormats (world : HttpWorld) :
    List String → List String × Option PricesBody
  | [] => ([], none)
  | f :: rest =>
    match world f with
    | some (st, body) =>
      if st = 200 then ([f], some body)
      else
        let r := tryFormats world rest
        (f :: r.1, r.2)
    | none =>
      let r := tryFormats world rest
      (f :: r.1, r.2)

/-- The three values get_jse_prices can produce: the typed list built from a
cache hit, the raw unparsed JSON body returned from inside the format loop,
or the literal fallback dict with an empty `prices` list. -/
inductive JsePricesReturn where
  | cachedPrices (ps : List Price)
  | rawBody (body : PricesBody)
  | emptyPricesDict
deriving DecidableEq

/-- Observable outcome of one get_jse_prices call: its return value, the
ticker formats it requested over HTTP (in order), and the price cache after
the call. -/
structure JseFetchOutcome where
  ret : JsePricesReturn
  httpRequests : List String
  cacheAfter : List (String × List PriceDict)
deriving DecidableEq

/-- The composite cache key of get_jse_prices:
`f"JSE_{ticker}_{start_date}_{end_date}"`. -/
def jseCacheKey (ticker start_date end_date : String) : String :=
  "JSE_" ++ ticker ++ "_" ++ start_date ++ "_" ++ end_date

/-- The cache-miss path of get_jse_prices: run the format loop; a success
returns its raw JSON body, otherwise the empty-prices dict is returned.  No
statement after `return {"prices": []}` executes, so the cache is passed
through unchanged and nothing is parsed or annotated. -/
def jseFetchMiss (world : HttpWorld) (cache : List (String × List PriceDict))
    (ticker : String) : JseFetchOutcome :=
  match tryFormats world (ticker_formats ticker) with
  | (reqs, some body) => ⟨.rawBody body, reqs, cache⟩
  | (reqs, none) => ⟨.emptyPricesDict, reqs, cache⟩

/-- SADataAdapter.get_jse_prices from `sa_data_adapter.py`.  An invalid
ticker raises ValueError (`Except.error`).  A truthy cached entry (Python
`if cached_data := ...` — a present but empty list is falsy) is parsed into
Price records and returned with no HTTP traffic.  Otherwise the format loop
runs via `jseFetchMiss`. -/
def get_jse_prices (world : HttpWorld) (cache : List (String × List PriceDict))
    (ticker start_date end_date : String) : Except String JseFetchOutcome :=
  if is_jse_ticker ticker then
    match dictGet cache (jseCacheKey ticker start_date end_date) with
    | some cached_data =>
      if cached_data.isEmpty then Except.ok (jseFetchMiss world cache ticker)
      else Except.ok ⟨.cachedPrices (cached_data.map Price.ofDict), [], cache⟩
    | none => Except.ok (jseFetchMiss world cache ticker)
  else Except.error ("Invalid JSE ticker format: " ++ ticker)

/-- A raw financial-metric dict inside the fundamentals JSON body. -/
structure MetricDict where
  fields : List (String × String)
deriving DecidableEq

/-- The typed FinancialMetrics record, built by `FinancialMetrics(**d)`. -/
structure FinancialMetrics where
  data : List (String × String)
deriving DecidableEq

/-- Python `FinancialMetrics(**metric_data)`. -/
def FinancialMetrics.ofDict (d : MetricDict) : FinancialMetrics := ⟨d.fields⟩

/-- Python `m.model_dump()`. -/
def FinancialMetrics.model_dump (m : FinancialMetrics) : MetricDict := ⟨m.data⟩

/-- Python `metric_data["currency"] = "ZAR"` on a raw dict. -/
def MetricDict.withZar (d : MetricDict) : MetricDict :=
  ⟨dictSet d.fields "currency" "ZAR"⟩

/-- Observable outcome of one get_sa_financial_metrics call: the returned
typed list, the number of HTTP requests issued, the metrics cache after the
call, and whether the error branch logged. -/
structure MetricsOutcome where
  metrics : List FinancialMetrics
  httpCalls : Nat
  cacheAfter : List (String × List MetricDict)
  logged : Bool
deriving DecidableEq

/-- The composite cache key of get_sa_financial_metrics:
`f"JSE_FIN_{ticker}_{end_date}_{period}"`. -/
def jseFinCacheKey (ticker end_date period : String) : String :=
  "JSE_FIN_" ++ ticker ++ "_" ++ end_date ++ "_" ++ period

/-- The cache-miss path of get_sa_financial_metrics: one GET on the
fundamentals URL (the oracle carries its response; `none` models a raised
request).  `raise_for_status` turns a 4xx/5xx status into a caught
RequestException, which logs and returns the empty list; otherwise every
entry of `data["financial_metrics"]` is annotated with currency ZAR, turned
into a typed record, the dump list is written to the cache and the typed
list returned. -/
def finFetchMiss (resp : Option (Nat × List MetricDict))
    (cache : List (String × List MetricDict)) (key : String) : MetricsOutcome :=
  match resp with
  | none => ⟨[], 1, cache, true⟩
  | some (st, body) =>
    if 400 ≤ st ∧ st < 600 then ⟨[], 1, cache, true⟩
    else
      let metrics := body.map fun d => FinancialMetrics.ofDict d.withZar
      ⟨metrics, 1,
        dictSet cache key (metrics.map FinancialMetrics.model_dump), false⟩

/-- SADataAdapter.get_sa_financial_metrics from `sa_data_adapter.py`: a
truthy cached entry is parsed into FinancialMetrics records and returned
with no HTTP call; otherwise the single fetch of `finFetchMiss` runs. -/
def get_sa_financial_metrics (resp : Option (Nat × List MetricDict))
    (cache : List (String × List MetricDict)) (ticker end_date period : String) :
    MetricsOutcome :=
  let key := jseFinCacheKey ticker end_date period
  match dictGet cache key with
  | some cached_data =>
    if cached_data.isEmpty then finFetchMiss resp cache key
    else ⟨cached_data.map FinancialMetrics.ofDict, 0, cache, false⟩
  | none => finFetchMiss resp cache key

/-! Helper lemmas about the dict model. -/

lemma dictGet_mem {β : Type} :
    ∀ (m : List (String × β)) (k : String) (v : β),
      dictGet m k = some v → (k, v) ∈ m := by
  intro m
  induction m with
  | nil => intro k v h; simp [dictGet] at h
  | cons a rest ih =>
    intro k v h
    obtain ⟨k₁, w⟩ := a
    by_cases hk : k₁ = k
    · subst hk
      simp [dictGet] at h
      subst h
      exact List.mem_cons_self _ _
    · simp [dictGet, hk] at h
      exact List.mem_cons_of_mem _ (ih k v h)

lemma mem_dictSet {β : Type} (k : String) (v : β) :
    ∀ (m : List (String × β)) (p : String × β),
      p ∈ dictSet m k v → p = (k, v) ∨ p ∈ m := by
  intro m
  induction m with
  | nil => intro p hp; simp [dictSet] at hp; left; exact hp
  | cons a rest ih =>
    intro p hp
    obtain ⟨k₁, w⟩ := a
    by_cases hk : k₁ = k
    · subst hk
      simp only [dictSet, if_pos rfl] at hp
      rcases List.mem_cons.mp hp with h | h
      · left; exact h
      · right; exact List.mem_cons_of_mem _ h
    · simp only [dictSet, if_neg hk] at hp
      rcases List.mem_cons.mp hp with h | h
      · right; exact h ▸ List.mem_cons_self _ _
      · rcases ih p h with h' | h'
        · left; exact h'
        · right; exact List.mem_cons_of_mem _ h'

lemma validate_sa_ticker_mem {t : String} (h : validate_sa_ticker t = true) :
    t ∈ TOP_STOCKS := by
  simp only [validate_sa_ticker, Bool.and_eq_true, decide_eq_true_eq] at h
  exact h.2

/-- C8: for every ticker in the TOP_STOCKS allow-list, get_sa_sector_exposure
returns a sector drawn from the SECTORS list (it is a plain lookup in a fixed
map, hence a pure function of the ticker), and in particular maps NPN to
Technology and SBK to Financial Services. -/
theorem sector_exposure_total_on_allow_list :
    (TOP_STOCKS.all fun t =>
      match get_sa_sector_exposure t with
      | some s => SECTORS.contains s
      | none => false) = true
    ∧ get_sa_sector_exposure "NPN" = some "Technology"
    ∧ get_sa_sector_exposure "SBK" = some "Financial Services" := by
  refine ⟨by decide, by decide, by decide⟩

/-- The JSON body used by the concrete price-fetch scenarios: one raw price
dict, carrying no currency annotation. -/
def demoBody : PricesBody :=
  ⟨[⟨[("time", "2024-01-02"), ("open", "100"), ("close", "101")]⟩]⟩

/-- An HTTP world in which the plain-ticker request for NPN answers 200 with
`demoBody` and every other request raises. -/
def demoWorld : HttpWorld :=
  fun f => if f = "NPN" then some (200, demoBody) else none

/-- C1: evaluation of get_jse_prices at a cache-miss call whose first
request succeeds with HTTP 200.  The function returns the raw JSON body
unparsed — no typed Price records, no ZAR annotation — and writes nothing
back to the cache: the parse/annotate/cache block of the source sits after
an unconditional return and never runs. -/
theorem get_jse_prices_returns_raw_body :
    get_jse_prices demoWorld [] "NPN" "2024-01-01" "2024-01-31" =
      Except.ok ⟨.rawBody demoBody, ["NPN"], []⟩ := by
  rfl

/-- The outcome of the first fetch in the C2 scenario: raw body returned,
one HTTP request issued, cache still empty. -/
def c2FirstOutcome : JseFetchOutcome := ⟨.rawBody demoBody, ["NPN"], []⟩

/-- C2: evaluation of two consecutive get_jse_prices calls for the same
composite key.  The first successful fetch leaves the cache empty, so the
second fetch issues the upstream HTTP request again instead of answering
from the cache. -/
theorem get_jse_prices_second_fetch_reissues_http :
    get_jse_prices demoWorld [] "NPN" "2024-02-01" "2024-02-29" =
        Except.ok c2FirstOutcome
    ∧ c2FirstOutcome.cacheAfter = []
    ∧ get_jse_prices demoWorld c2FirstOutcome.cacheAfter "NPN" "2024-02-01"
        "2024-02-29" = Except.ok c2FirstOutcome
    ∧ c2FirstOutcome.httpRequests = ["NPN"] := by
  exact ⟨rfl, rfl, rfl, rfl⟩

lemma analyst_agent_not_fetched {t : String} (h : t ∉ TOP_STOCKS)
    (llm : String → LLMOutcome) :
    ∀ tickers, t ∉ (sa_market_analyst_agent llm tickers).2 := by
  intro tickers
  induction tickers with
  | nil => simp [sa_market_analyst_agent]
  | cons a rest ih =>
    simp only [sa_market_analyst_agent]
    by_cases hv : validate_sa_ticker a = true
    · simp only [hv, if_true]
      intro hmem
      rcases List.mem_cons.mp hmem with heq | hmem'
      · exact h (heq ▸ validate_sa_ticker_mem hv)
      · exact ih hmem'
    · simp only [hv, if_false]
      exact ih

/-- C7: is_jse_ticker holds exactly for strings of length 3 to 4, made of
alphabetic characters, that belong to TOP_STOCKS (it is a pure predicate);
and a ticker outside the allow-list is rejected and never reaches the
adapter fetch calls of the market-analyst loop, whose fetch trace it cannot
appear in. -/
theorem is_jse_ticker_spec (t : String) :
    (is_jse_ticker t = true ↔
      3 ≤ t.length ∧ t.length ≤ 4 ∧ (∀ c ∈ t.toList, c.isAlpha = true)
        ∧ t ∈ TOP_STOCKS)
    ∧ (t ∉ TOP_STOCKS → is_jse_ticker t = false ∧
        ∀ (llm : String → LLMOutcome) (tickers : List String),
          t ∉ (sa_market_analyst_agent llm tickers).2) := by
  constructor
  · simp [is_jse_ticker, Bool.and_eq_true, decide_eq_true_eq, List.all_eq_true,
      and_assoc]
  · intro h
    refine ⟨?_, fun llm tickers => analyst_agent_not_fetched h llm tickers⟩
    simp [is_jse_ticker, h]

/-- C7 witness: AAPL is outside the allow-list, is rejected by the
validator, and triggers no adapter fetch in a concrete analyst run. -/
theorem is_jse_ticker_spec_witness :
    is_jse_ticker "AAPL" = false ∧
      "AAPL" ∉ (sa_market_analyst_agent (fun _ => .failed "x")
        ["AAPL", "NPN"]).2 := by
  have h := (is_jse_ticker_spec "AAPL").2 (by decide)
  exact ⟨h.1, h.2 _ _⟩

lemma analyst_agent_lookup (llm : String → LLMOutcome) {t : String}
    (hv : validate_sa_ticker t = true) :
    ∀ tickers, t ∈ tickers →
      dictGet (sa_market_analyst_agent llm tickers).1 t =
        some (analyzeTicker llm t) := by
  intro tickers
  induction tickers with
  | nil => intro h; simp at h
  | cons a rest ih =>
    intro hmem
    simp only [sa_market_analyst_agent]
    by_cases hva : validate_sa_ticker a = true
    · simp only [hva, if_true]
      by_cases hat : a = t
      · subst hat; simp [dictGet]
      · simp only [dictGet, if_neg hat]
        rcases List.mem_cons.mp hmem with heq | hmem'
        · exact absurd heq.symm hat
        · exact ih hmem'
    · simp only [hva, if_false]
      rcases List.mem_cons.mp hmem with heq | hmem'
      · exact absurd (heq ▸ hv) hva
      · exact ih hmem'

/-- C5: when the LLM call for a valid ticker raises or its reply fails to
parse (the `failed` outcome), the market-analyst loop catches the failure
and records the default signal HOLD with confidence 0.5 (and position cap
0.02) for that ticker, so the results dict has an entry for it. -/
theorem analyst_default_on_llm_failure (llm : String → LLMOutcome)
    (tickers : List String) (t e : String) (hmem : t ∈ tickers)
    (hv : validate_sa_ticker t = true) (hfail : llm t = .failed e) :
    dictGet (sa_market_analyst_agent llm tickers).1 t =
      some ⟨"HOLD", 1 / 2, .analysisFailed ("Analysis failed: " ++ e),
        2 / 100⟩ := by
  rw [analyst_agent_lookup llm hv tickers hmem]
  simp [analyzeTicker, hfail]

/-- C5 witness: a concrete run over NPN with an always-failing LLM records
the default HOLD signal with confidence 0.5. -/
theorem analyst_default_on_llm_failure_witness :
    ("NPN" ∈ ["NPN", "AAPL"]) ∧ validate_sa_ticker "NPN" = true ∧
      dictGet (sa_market_analyst_agent (fun _ => .failed "boom")
          ["NPN", "AAPL"]).1 "NPN" =
        some ⟨"HOLD", 1 / 2, .analysisFailed "Analysis failed: boom",
          2 / 100⟩ :=
  ⟨by decide, by decide,
    analyst_default_on_llm_failure (fun _ => .failed "boom") ["NPN", "AAPL"]
      "NPN" "boom" (by decide) (by decide) rfl⟩

lemma currency_agent_lookup (economic_indicators fx_rates : List (String × ℚ))
    {t : String} (hv : validate_sa_ticker t = true) :
    ∀ tickers, t ∈ tickers →
      dictGet (sa_currency_risk_agent economic_indicators fx_rates tickers) t =
        some (currencyTickerSignal
          ((dictGet economic_indicators "SA_CPI").getD 0)
          ((dictGet economic_indicators "SA_REPO_RATE").getD 0) fx_rates t) := by
  intro tickers
  induction tickers with
  | nil => intro h; simp at h
  | cons a rest ih =>
    intro hmem
    simp only [sa_currency_risk_agent]
    by_cases hva : validate_sa_ticker a = true
    · simp only [hva, if_true]
      by_cases hat : a = t
      · subst hat; simp [dictGet]
      · simp only [dictGet, if_neg hat]
        rcases List.mem_cons.mp hmem with heq | hmem'
        · exact absurd heq.symm hat
        · exact ih hmem'
    · simp only [hva, if_false]
      rcases List.mem_cons.mp hmem with heq | hmem'
      · exact absurd (heq ▸ hv) hva
      · exact ih hmem'

/-- C4: for a valid ticker classified `high` in the hardcoded sensitivity
table, the currency-risk agent emits REDUCE exactly when the SA_CPI
indicator exceeds 6.0 and HOLD otherwise, always with confidence 0.8 (and
the high-sensitivity position cap 0.03). -/
theorem currency_high_sensitivity_signal
    (economic_indicators fx_rates : List (String × ℚ)) (tickers : List String)
    (t : String) (hmem : t ∈ tickers) (hv : validate_sa_ticker t = true)
    (hhigh : dictGet currency_sensitive_stocks t = some "high") :
    dictGet (sa_currency_risk_agent economic_indicators fx_rates tickers) t =
      some ⟨if 6 < (dictGet economic_indicators "SA_CPI").getD 0
              then "REDUCE" else "HOLD",
            8 / 10,
            ⟨"high", (dictGet economic_indicators "SA_CPI").getD 0,
              (dictGet economic_indicators "SA_REPO_RATE").getD 0, fx_rates⟩,
            3 / 100⟩ := by
  rw [currency_agent_lookup economic_indicators fx_rates hv tickers hmem]
  simp [currencyTickerSignal, hhigh]

/-- C4 witness: BHP with SA_CPI at 7 gets REDUCE at confidence 0.8. -/
theorem currency_high_sensitivity_signal_witness :
    ("BHP" ∈ ["BHP"]) ∧ validate_sa_ticker "BHP" = true ∧
      dictGet currency_sensitive_stocks "BHP" = some "high" ∧
      dictGet (sa_currency_risk_agent [("SA_CPI", 7)] [] ["BHP"]) "BHP" =
        some ⟨if (6 : ℚ) < 7 then "REDUCE" else "HOLD", 8 / 10,
          ⟨"high", 7, 0, []⟩, 3 / 100⟩ := by
  refine ⟨by decide, by decide, by decide, ?_⟩
  have h := currency_high_sensitivity_signal [("SA_CPI", 7)] [] ["BHP"] "BHP"
    (by decide) (by decide) (by decide)
  simpa [dictGet] using h

/-- C10: exactly the allow-list tickers IMP, ANG and AMS are missing from
the hardcoded sensitivity table, and any valid ticker missing from that
table silently defaults to `low` sensitivity, hence always gets signal BUY
with confidence 0.7 and position cap 0.05, for every indicator and FX
input. -/
theorem currency_default_low_signal :
    (TOP_STOCKS.filter
        (fun t => (dictGet currency_sensitive_stocks t).isNone) =
      ["IMP", "ANG", "AMS"])
    ∧ ∀ (economic_indicators fx_rates : List (String × ℚ))
        (tickers : List String) (t : String), t ∈ tickers →
        validate_sa_ticker t = true →
        dictGet currency_sensitive_stocks t = none →
        dictGet (sa_currency_risk_agent economic_indicators fx_rates tickers)
            t =
          some ⟨"BUY", 7 / 10,
            ⟨"low", (dictGet economic_indicators "SA_CPI").getD 0,
              (dictGet economic_indicators "SA_REPO_RATE").getD 0, fx_rates⟩,
            5 / 100⟩ := by
  refine ⟨by decide, ?_⟩
  intro economic_indicators fx_rates tickers t hmem hv hnone
  rw [currency_agent_lookup economic_indicators fx_rates hv tickers hmem]
  simp [currencyTickerSignal, hnone]

/-- C10 witness: IMP, with arbitrary concrete indicator data, gets BUY at
confidence 0.7 and cap 0.05. -/
theorem currency_default_low_signal_witness :
    ("IMP" ∈ ["IMP"]) ∧ validate_sa_ticker "IMP" = true ∧
      dictGet currency_sensitive_stocks "IMP" = none ∧
      dictGet (sa_currency_risk_agent [("SA_CPI", 9)] [("USDZAR", 18)]
          ["IMP"]) "IMP" =
        some ⟨"BUY", 7 / 10, ⟨"low", 9, 0, [("USDZAR", 18)]⟩, 5 / 100⟩ := by
  refine ⟨by decide, by decide, by decide, ?_⟩
  have h := currency_default_low_signal.2 [("SA_CPI", 9)] [("USDZAR", 18)]
    ["IMP"] "IMP" (by decide) (by decide) (by decide)
  simpa [dictGet] using h

/-- C3: with positive total cash, every positive position whose value share
`shares * 100 / total_cash` strictly exceeds the 5% limit appears in the
compliance issues with the two percentage strings; and when every positive
position is under the limit and no sector issue fires, the verdict is
exactly COMPLIANT with confidence exactly 1. -/
theorem compliance_position_checks (portfolio : Portfolio)
    (hcash : 0 < portfolio.total_cash) :
    (∀ ticker pos, (ticker, pos) ∈ portfolio.positions → 0 < pos.shares →
      MAX_POSITION_SIZE < pos.shares * 100 / portfolio.total_cash →
      ComplianceIssue.position ticker "Position size exceeds 5% limit"
          (formatPct (pos.shares * 100 / portfolio.total_cash))
          (formatPct MAX_POSITION_SIZE)
        ∈ (sa_regulatory_compliance_agent portfolio).reasoning)
    ∧ ((∀ ticker pos, (ticker, pos) ∈ portfolio.positions → 0 < pos.shares →
          pos.shares * 100 / portfolio.total_cash < MAX_POSITION_SIZE) →
        sector_issues portfolio.positions = [] →
        (sa_regulatory_compliance_agent portfolio).signal = "COMPLIANT"
          ∧ (sa_regulatory_compliance_agent portfolio).confidence = 1) := by
  constructor
  · intro ticker pos hmem hsh hover
    have hissue : ComplianceIssue.position ticker "Position size exceeds 5% limit"
        (formatPct (pos.shares * 100 / portfolio.total_cash))
        (formatPct MAX_POSITION_SIZE) ∈ position_issues portfolio := by
      simp only [position_issues, List.mem_filterMap]
      refine ⟨(ticker, pos), hmem, ?_⟩
      simp [hsh, hcash, hover]
    simp only [sa_regulatory_compliance_agent]
    exact List.mem_append_left _ hissue
  · intro hunder hsec
    have hpos_nil : position_issues portfolio = [] := by
      simp only [position_issues, List.filterMap_eq_nil_iff]
      intro tp htp
      obtain ⟨tic, p⟩ := tp
      by_cases hsh : 0 < p.shares
      · have hlt := hunder tic p htp hsh
        simp [hsh, hcash, not_lt.mpr (le_of_lt hlt), lt_asymm hlt]
      · simp [hsh]
    simp [sa_regulatory_compliance_agent, hpos_nil, hsec]

/-- The portfolio of the C3 witness: cash 10000, 6 NPN shares (a 6% value
share) and 3 SBK shares (a 3% value share). -/
def c3Portfolio : Portfolio := ⟨10000, [("NPN", ⟨6⟩), ("SBK", ⟨3⟩)]⟩

/-- C3 witness: the theorem applied to a concrete portfolio with positive
cash. -/
theorem compliance_position_checks_witness :
    0 < c3Portfolio.total_cash ∧
      ((∀ ticker pos, (ticker, pos) ∈ c3Portfolio.positions → 0 < pos.shares →
        MAX_POSITION_SIZE < pos.shares * 100 / c3Portfolio.total_cash →
        ComplianceIssue.position ticker "Position size exceeds 5% limit"
            (formatPct (pos.shares * 100 / c3Portfolio.total_cash))
            (formatPct MAX_POSITION_SIZE)
          ∈ (sa_regulatory_compliance_agent c3Portfolio).reasoning)
      ∧ ((∀ ticker pos, (ticker, pos) ∈ c3Portfolio.positions → 0 < pos.shares →
            pos.shares * 100 / c3Portfolio.total_cash < MAX_POSITION_SIZE) →
          sector_issues c3Portfolio.positions = [] →
          (sa_regulatory_compliance_agent c3Portfolio).signal = "COMPLIANT"
            ∧ (sa_regulatory_compliance_agent c3Portfolio).confidence = 1)) :=
  ⟨by norm_num [c3Portfolio],
    compliance_position_checks c3Portfolio (by norm_num [c3Portfolio])⟩

lemma sectorExposuresFrom_values_pos :
    ∀ (positions : List (String × Position)) (m : List (String × ℚ)),
      (∀ p ∈ m, 0 < p.2) →
      ∀ p ∈ sectorExposuresFrom m positions, 0 < p.2 := by
  intro positions
  induction positions with
  | nil => intro m hm; simpa [sectorExposuresFrom] using hm
  | cons a rest ih =>
    intro m hm
    obtain ⟨ticker, position⟩ := a
    simp only [sectorExposuresFrom]
    by_cases hsh : 0 < position.shares
    · rw [if_pos hsh]
      cases hsec : get_sa_sector_exposure ticker with
      | none => exact ih m hm
      | some sector =>
        apply ih
        intro p hp
        rcases mem_dictSet sector _ m p hp with heq | hmem
        · subst heq

          cases hdg : dictGet m sector with
          | none => simpa [hdg] using hsh
          | some w =>
            have hw : 0 < w := hm (sector, w) (dictGet_mem m sector w hdg)
            simp only [hdg, Option.getD_some]
            exact add_pos hw hsh
        · exact hm p hmem
    · rw [if_neg hsh]
      exact ih m hm

lemma exists_ge_third (l : List ℚ) (hne : l ≠ []) (hlen : l.length ≤ 3)
    (hpos : ∀ x ∈ l, 0 < x) : ∃ x ∈ l, l.sum ≤ 3 * x := by
  rcases l with _ | ⟨a, _ | ⟨b, _ | ⟨c, _ | ⟨d, rest⟩⟩⟩⟩
  · exact absurd rfl hne
  · have ha := hpos a (by simp)
    refine ⟨a, by simp, by simp; linarith⟩
  · have ha := hpos a (by simp)
    have hb := hpos b (by simp)
    rcases le_total a b with h | h
    · exact ⟨b, by simp, by simp; linarith⟩
    · exact ⟨a, by simp, by simp; linarith⟩
  · have ha := hpos a (by simp)
    have hb := hpos b (by simp)
    have hc := hpos c (by simp)
    by_cases h1 : a + b + c ≤ 3 * a
    · exact ⟨a, by simp, by simp; linarith⟩
    · by_cases h2 : a + b + c ≤ 3 * b
      · exact ⟨b, by simp, by simp; linarith⟩
      · push_neg at h1 h2
        exact ⟨c, by simp, by simp; linarith⟩
  · exfalso
    simp only [List.length_cons] at hlen
    omega

/-- C9: whenever the positive-share positions of a portfolio are spread over
at most three represented sectors (and at least one sector is represented),
some sector ratio necessarily exceeds the 30% limit — the ratios sum to 1 —
so a sector issue fires and the verdict is always NON_COMPLIANT; in
particular a single-sector portfolio is never COMPLIANT. -/
theorem compliance_sector_pigeonhole (portfolio : Portfolio)
    (hne : sector_exposures portfolio.positions ≠ [])
    (hlen : (sector_exposures portfolio.positions).length ≤ 3) :
    sector_issues portfolio.positions ≠ []
    ∧ (sa_regulatory_compliance_agent portfolio).signal = "NON_COMPLIANT" := by
  have hvals : ∀ p ∈ sector_exposures portfolio.positions, 0 < p.2 :=
    sectorExposuresFrom_values_pos portfolio.positions [] (by simp)
  have hnem : (sector_exposures portfolio.positions).map Prod.snd ≠ [] := by
    simpa using hne
  have hlenm : ((sector_exposures portfolio.positions).map Prod.snd).length ≤ 3 := by
    simpa using hlen
  have hposm : ∀ x ∈ (sector_exposures portfolio.positions).map Prod.snd, 0 < x := by
    intro x hx
    rcases List.mem_map.mp hx with ⟨p, hp, rfl⟩
    exact hvals p hp
  obtain ⟨x, hx, hsum⟩ := exists_ge_third _ hnem hlenm hposm
  have htot : 0 < ((sector_exposures portfolio.positions).map Prod.snd).sum :=
    List.sum_pos _ hposm hnem
  rcases List.mem_map.mp hx with ⟨p, hp, rfl⟩
  have hshare : MAX_SECTOR_EXPOSURE <
      p.2 / ((sector_exposures portfolio.positions).map Prod.snd).sum := by
    rw [MAX_SECTOR_EXPOSURE, lt_div_iff₀ htot]
    linarith
  have hissue : ComplianceIssue.sector p.1 "Sector exposure exceeds 30% limit"
      (formatPct (p.2 / ((sector_exposures portfolio.positions).map Prod.snd).sum))
      (formatPct MAX_SECTOR_EXPOSURE) ∈ sector_issues portfolio.positions := by
    simp only [sector_issues, List.mem_filterMap]
    refine ⟨p, hp, ?_⟩
    simp [htot, hshare]
  have hsec_ne : sector_issues portfolio.positions ≠ [] :=
    List.ne_nil_of_mem hissue
  refine ⟨hsec_ne, ?_⟩
  have happ : position_issues portfolio ++ sector_issues portfolio.positions ≠ [] := by
    intro h
    exact hsec_ne (List.append_eq_nil.mp h).2
  obtain ⟨i, t, hit⟩ := List.exists_cons_of_ne_nil happ
  simp [sa_regulatory_compliance_agent, hit]

/-- C9 witness: a portfolio fully concentrated in one sector (5 NPN shares,
Technology) is judged NON_COMPLIANT. -/
theorem compliance_sector_pigeonhole_witness :
    sector_exposures [("NPN", ⟨5⟩)] ≠ [] ∧
      (sector_exposures [("NPN", (⟨5⟩ : Position))]).length ≤ 3 ∧
      (sector_issues [("NPN", (⟨5⟩ : Position))] ≠ [] ∧
        (sa_regulatory_compliance_agent ⟨10000, [("NPN", ⟨5⟩)]⟩).signal =
          "NON_COMPLIANT") :=
  ⟨by decide, by decide,
    compliance_sector_pigeonhole ⟨10000, [("NPN", ⟨5⟩)]⟩ (by decide) (by decide)⟩

lemma tryFormats_eq (world : HttpWorld) :
    ∀ fs : List String,
      tryFormats world fs =
        (fs.takeWhile (fun f => (succBody world f).isNone)
            ++ (fs.dropWhile (fun f => (succBody world f).isNone)).take 1,
          ((fs.dropWhile (fun f => (succBody world f).isNone)).head?).bind
            (succBody world)) := by
  intro fs
  induction fs with
  | nil => simp [tryFormats]
  | cons f rest ih =>
    simp only [tryFormats]
    cases hw : world f with
    | none =>
      have hs : succBody world f = none := by simp [succBody, hw]
      simp [List.takeWhile_cons, List.dropWhile_cons, hs, ih]
    | some p =>
      obtain ⟨st, body⟩ := p
      by_cases h200 : st = 200
      · subst h200
        have hs : succBody world f = some body := by simp [succBody, hw]
        simp [List.takeWhile_cons, List.dropWhile_cons, hs]
      · have hs : succBody world f = none := by simp [succBody, hw, h200]
        simp [List.takeWhile_cons, List.dropWhile_cons, hs, h200, ih]

lemma ticker_formats_nodup {t : String} (h : is_jse_ticker t = true) :
    (ticker_formats t).Nodup := by
  have h' := h
  simp only [is_jse_ticker, Bool.and_eq_true, decide_eq_true_eq,
    List.all_eq_true] at h'
  obtain ⟨⟨⟨h3, h4⟩, halpha⟩, hmem⟩ := h'
  have lenJ : ("JSE:" : String).length = 4 := rfl
  have lenS : (".JSE" : String).length = 4 := rfl
  have lenO : (".JO" : String).length = 3 := rfl
  have n1 : t ≠ "JSE:" ++ t := by
    intro he
    have hl := congrArg String.length he
    rw [String.length_append, lenJ] at hl
    omega
  have n2 : t ≠ t ++ ".JSE" := by
    intro he
    have hl := congrArg String.length he
    rw [String.length_append, lenS] at hl
    omega
  have n3 : t ≠ t ++ ".JO" := by
    intro he
    have hl := congrArg String.length he
    rw [String.length_append, lenO] at hl
    omega
  have n4 : "JSE:" ++ t ≠ t ++ ".JSE" := by
    intro he
    have hd := congrArg String.data he
    rw [String.data_append, String.data_append] at hd
    have hc := congrArg (fun l : List Char => l.count ':') hd
    simp only [List.count_append] at hc
    have e1 : ("JSE:" : String).data.count ':' = 1 := by decide
    have e2 : (".JSE" : String).data.count ':' = 0 := by decide
    have e0 : t.data.count ':' = 0 := by
      rw [List.count_eq_zero]
      intro hmem'
      have halp := halpha ':' hmem'
      exact absurd halp (by decide)
    rw [e1, e2, e0] at hc
    omega
  have n5 : "JSE:" ++ t ≠ t ++ ".JO" := by
    intro he
    have hl := congrArg String.length he
    rw [String.length_append, String.length_append, lenJ, lenO] at hl
    omega
  have n6 : t ++ ".JSE" ≠ t ++ ".JO" := by
    intro he
    have hl := congrArg String.length he
    rw [String.length_append, String.length_append, lenS, lenO] at hl
    omega
  simp only [ticker_formats, List.nodup_cons, List.mem_cons,
    List.mem_singleton, List.not_mem_nil, or_false, not_or, List.nodup_nil,
    and_true]
  exact ⟨⟨n1, n2, n3⟩, ⟨n4, n5⟩, n6, not_false⟩

lemma jseFetchMiss_fields (world : HttpWorld)
    (cache : List (String × List PriceDict)) (ticker : String) :
    (jseFetchMiss world cache ticker).cacheAfter = cache
    ∧ (jseFetchMiss world cache ticker).httpRequests =
        (tryFormats world (ticker_formats ticker)).1 := by
  unfold jseFetchMiss
  cases htf : tryFormats world (ticker_formats ticker) with
  | mk reqs res => cases res <;> simp

lemma get_jse_prices_cache_invariant (world : HttpWorld)
    (cache : List (String × List PriceDict))
    (ticker start_date end_date : String) (o : JseFetchOutcome)
    (hok : get_jse_prices world cache ticker start_date end_date =
      Except.ok o) :
    o.cacheAfter = cache
    ∧ (o.httpRequests = []
        ∨ o.httpRequests = (tryFormats world (ticker_formats ticker)).1) := by
  unfold get_jse_prices at hok
  split at hok
  · split at hok
    · split at hok
      · injection hok with h
        subst h
        exact ⟨(jseFetchMiss_fields world cache ticker).1,
          Or.inr (jseFetchMiss_fields world cache ticker).2⟩
      · injection hok with h
        subst h
        exact ⟨rfl, Or.inl rfl⟩
    · injection hok with h
      subst h
      exact ⟨(jseFetchMiss_fields world cache ticker).1,
        Or.inr (jseFetchMiss_fields world cache ticker).2⟩
  · exact absurd hok (by simp)

/-- C6: on a valid ticker, the get_jse_prices fallback requests exactly the
four fixed spellings in order — the failing ones first, then the first one
whose response is HTTP 200, whose body it returns — with no later variant
tried, no variant repeated (the format list has no duplicates) and no
retry; and the duplicate parse/annotate/cache block after the function's
unconditional return is unreachable: the cache is passed through every path
unchanged. -/
theorem price_fallback_first_success (world : HttpWorld)
    (cache : List (String × List PriceDict))
    (ticker start_date end_date : String) (o : JseFetchOutcome)
    (hjse : is_jse_ticker ticker = true)
    (hok : get_jse_prices world cache ticker start_date end_date =
      Except.ok o) :
    (tryFormats world (ticker_formats ticker)).1
      = (ticker_formats ticker).takeWhile (fun f => (succBody world f).isNone)
        ++ ((ticker_formats ticker).dropWhile
            (fun f => (succBody world f).isNone)).take 1
    ∧ (tryFormats world (ticker_formats ticker)).2
      = ((ticker_formats ticker).dropWhile
          (fun f => (succBody world f).isNone)).head?.bind (succBody world)
    ∧ (ticker_formats ticker).Nodup
    ∧ o.cacheAfter = cache
    ∧ (o.httpRequests = []
        ∨ o.httpRequests = (tryFormats world (ticker_formats ticker)).1) := by
  have h := tryFormats_eq world (ticker_formats ticker)
  have hc := get_jse_prices_cache_invariant world cache ticker start_date
    end_date o hok
  exact ⟨by rw [h], by rw [h], ticker_formats_nodup hjse, hc.1, hc.2⟩

/-- The HTTP world of the C6 witness: the plain NPN spelling answers 404,
the JSE-prefixed spelling answers 200, everything else raises. -/
def c6World : HttpWorld := fun f =>
  if f = "NPN" then some (404, ⟨[]⟩)
  else if f = "JSE:NPN" then some (200, demoBody) else none

/-- The outcome of the C6 witness run: raw body of the second spelling,
both spellings requested, cache untouched. -/
def c6Out : JseFetchOutcome := ⟨.rawBody demoBody, ["NPN", "JSE:NPN"], []⟩

/-- C6 witness: a concrete run in which the first spelling fails with 404
and the second answers 200. -/
theorem price_fallback_first_success_witness :
    is_jse_ticker "NPN" = true
    ∧ get_jse_prices c6World [] "NPN" "2024-03-01" "2024-03-31" =
        Except.ok c6Out
    ∧ ((tryFormats c6World (ticker_formats "NPN")).1
        = (ticker_formats "NPN").takeWhile
            (fun f => (succBody c6World f).isNone)
          ++ ((ticker_formats "NPN").dropWhile
              (fun f => (succBody c6World f).isNone)).take 1
      ∧ (tryFormats c6World (ticker_formats "NPN")).2
        = ((ticker_formats "NPN").dropWhile
            (fun f => (succBody c6World f).isNone)).head?.bind
            (succBody c6World)
      ∧ (ticker_formats "NPN").Nodup
      ∧ c6Out.cacheAfter = []
      ∧ (c6Out.httpRequests = []
          ∨ c6Out.httpRequests = (tryFormats c6World (ticker_formats "NPN")).1)) :=
  ⟨by decide, rfl,
    price_fallback_first_success c6World [] "NPN" "2024-03-01" "2024-03-31"
      c6Out (by decide) rfl⟩

lemma dictGet_dictSet {β : Type} :
    ∀ (m : List (String × β)) (k : String) (v : β),
      dictGet (dictSet m k v) k = some v := by
  intro m
  induction m with
  | nil => intro k v; simp [dictSet, dictGet]
  | cons a rest ih =>
    intro k v
    obtain ⟨k₁, w⟩ := a
    by_cases hk : k₁ = k
    · subst hk
      simp [dictSet, dictGet]
    · simp [dictSet, dictGet, hk, ih]

/-- Supporting contrast to the price-fetch behaviour: get_sa_financial_metrics
does implement the read-through pattern.  A cache-miss call answered 200
with a non-empty metrics array annotates each entry with currency ZAR,
returns the typed records and caches their dumps; an immediate second call
for the same composite key answers from the cache with the identical typed
list and zero HTTP calls. -/
theorem metrics_cache_round_trip (body : List MetricDict)
    (cache : List (String × List MetricDict)) (ticker end_date period : String)
    (hmiss : dictGet cache (jseFinCacheKey ticker end_date period) = none)
    (hne : body ≠ []) :
    (get_sa_financial_metrics (some (200, body)) cache ticker end_date
        period).metrics =
      body.map (fun d => FinancialMetrics.ofDict d.withZar)
    ∧ (get_sa_financial_metrics (some (200, body)) cache ticker end_date
        period).httpCalls = 1
    ∧ (get_sa_financial_metrics (some (200, body))
        (get_sa_financial_metrics (some (200, body)) cache ticker end_date
          period).cacheAfter ticker end_date period).metrics =
      body.map (fun d => FinancialMetrics.ofDict d.withZar)
    ∧ (get_sa_financial_metrics (some (200, body))
        (get_sa_financial_metrics (some (200, body)) cache ticker end_date
          period).cacheAfter ticker end_date period).httpCalls = 0 := by
  have h1 : get_sa_financial_metrics (some (200, body)) cache ticker end_date
      period =
      ⟨body.map (fun d => FinancialMetrics.ofDict d.withZar), 1,
        dictSet cache (jseFinCacheKey ticker end_date period)
          ((body.map (fun d => FinancialMetrics.ofDict d.withZar)).map
            FinancialMetrics.model_dump), false⟩ := by
    simp [get_sa_financial_metrics, hmiss, finFetchMiss]
  have hkey : dictGet
      (dictSet cache (jseFinCacheKey ticker end_date period)
        ((body.map (fun d => FinancialMetrics.ofDict d.withZar)).map
          FinancialMetrics.model_dump))
      (jseFinCacheKey ticker end_date period) =
      some ((body.map (fun d => FinancialMetrics.ofDict d.withZar)).map
        FinancialMetrics.model_dump) := dictGet_dictSet _ _ _
  have hdump : ∀ l : List FinancialMetrics,
      (l.map FinancialMetrics.model_dump).map FinancialMetrics.ofDict = l := by
    intro l
    have hcomp : FinancialMetrics.ofDict ∘ FinancialMetrics.model_dump = id :=
      rfl
    rw [List.map_map, hcomp, List.map_id]
  have hne' : ((body.map (fun d => FinancialMetrics.ofDict d.withZar)).map
      FinancialMetrics.model_dump).isEmpty = false := by
    rcases body with _ | ⟨d, rest⟩
    · exact absurd rfl hne
    · simp
  refine ⟨by rw [h1], by rw [h1], ?_, ?_⟩
  · rw [h1]
    simp only [get_sa_financial_metrics, hkey, hne', Bool.false_eq_true,
      if_false]
    exact hdump _
  · rw [h1]
    simp only [get_sa_financial_metrics, hkey, hne', Bool.false_eq_true,
      if_false]

end SAHedge
